import Mathlib

/-!
Verification of the property-listing data store of `src/server.js`.

The store keeps a collection of property records in a single JSON file
(`data/properties.json`).  The relevant source functions are
`ensureDataDir` (lines 20-26), `getProperties` (29-90), `saveProperties`
(92-95) and `getPropertyById` (97-100).  This file gives a shallow
embedding of those functions and proves the spec's claims about them.

Modelling decisions:
* JavaScript values that flow through the store all pass through
  `JSON.parse` / `JSON.stringify`, so they are modelled by an inductive
  `Json` type (numbers are `Int`: every numeric field in the store is a
  small integer, and no float arithmetic occurs anywhere in the store).
* The filesystem state visible to the store is the data directory's
  existence flag and the backing file.  A present file carries both its
  raw text and the result of `JSON.parse` on that text (`parsed = none`
  models text on which `JSON.parse` throws).  A write stores
  `JSON.stringify` output, whose parse result is the written value.
* `new Date().toISOString()` is nondeterministic; it is modelled by a
  `clock : Nat → String` giving the successive results of the `Date`
  calls made during one `getProperties` call (six calls in the seeding
  branch, in source order).
* OS-level I/O failures (permissions, full disk) are outside the
  embedding: reads and writes succeed, matching the single-process
  resource model of the spec.
-/

/-- JSON values, the data the store reads and writes. -/
inductive Json where
  | null : Json
  | bool : Bool → Json
  | num : Int → Json
  | str : String → Json
  | arr : List Json → Json
  | obj : List (String × Json) → Json

/-- Lowercase hex digit for `\u00XX` escapes. -/
def hexDigit (n : Nat) : Char :=
  if n < 10 then Char.ofNat (48 + n) else Char.ofNat (87 + n)

/-- Escaping of one character inside a JSON string literal, as
`JSON.stringify` does it. -/
def escapeJsonChar (c : Char) : String :=
  if c = '"' then "\\\""
  else if c = '\\' then "\\\\"
  else if c = Char.ofNat 8 then "\\b"
  else if c = Char.ofNat 12 then "\\f"
  else if c = '\n' then "\\n"
  else if c = '\r' then "\\r"
  else if c = '\t' then "\\t"
  else if c.toNat < 32 then
    "\\u00" ++ String.singleton (hexDigit (c.toNat / 16))
      ++ String.singleton (hexDigit (c.toNat % 16))
  else String.singleton c

/-- A JSON string literal: quotes around the escaped characters. -/
def quoteJsonString (s : String) : String :=
  "\"" ++ String.join (s.data.map escapeJsonChar) ++ "\""

mutual

/-- Rendering of a JSON value as `JSON.stringify(v, null, 2)` does:
empty arrays and objects render inline, non-empty ones put every item on
its own line indented two spaces past the enclosing indentation `ind`. -/
def renderJson (ind : String) : Json → String
  | Json.null => "null"
  | Json.bool b => if b then "true" else "false"
  | Json.num n => toString n
  | Json.str s => quoteJsonString s
  | Json.arr [] => "[]"
  | Json.arr (x :: xs) =>
      "[\n" ++ renderArrayItems (ind ++ "  ") (x :: xs) ++ "\n" ++ ind ++ "]"
  | Json.obj [] => "\x7b\x7d"
  | Json.obj (kv :: kvs) =>
      "\x7b\n" ++ renderObjItems (ind ++ "  ") (kv :: kvs) ++ "\n" ++ ind ++ "\x7d"

/-- Comma-and-newline separated array items at indentation `ind`. -/
def renderArrayItems (ind : String) : List Json → String
  | [] => ""
  | [x] => ind ++ renderJson ind x
  | x :: y :: xs =>
      ind ++ renderJson ind x ++ ",\n" ++ renderArrayItems ind (y :: xs)

/-- Comma-and-newline separated `"key": value` object members at
indentation `ind`. -/
def renderObjItems (ind : String) : List (String × Json) → String
  | [] => ""
  | [(k, v)] => ind ++ quoteJsonString k ++ ": " ++ renderJson ind v
  | (k, v) :: kv :: kvs =>
      ind ++ quoteJsonString k ++ ": " ++ renderJson ind v ++ ",\n"
        ++ renderObjItems ind (kv :: kvs)

end

/-- Model of `JSON.stringify(v, null, 2)` at top level. -/
def jsonStringify (v : Json) : String :=
  renderJson "" v

/-- Content of the backing file `data/properties.json` when it exists:
the raw text and the outcome of `JSON.parse` on it (`none` when parsing
throws).  Text produced by `fs.writeFile` of `JSON.stringify` output
parses back to the written value, which the write operation records. -/
structure FileData where
  raw : String
  parsed : Option Json

/-- Filesystem state the store can observe: whether `DATA_DIR` exists
and the backing file (`none` when absent, so reading it throws ENOENT). -/
structure Store where
  dirExists : Bool
  file : Option FileData

/-- A fresh environment: no data directory, no backing file. -/
def initStore : Store :=
  { dirExists := false, file := none }

/-- Model of `ensureDataDir` (server.js 20-26): `fs.access(DATA_DIR)`
succeeds when the directory exists; otherwise the catch branch runs
`fs.mkdir(DATA_DIR, recursive)`, after which the directory exists. -/
def ensureDataDir (s : Store) : Store :=
  if s.dirExists then s else { s with dirExists := true }

/-- Model of `saveProperties` (server.js 92-95): ensure the data
directory, then overwrite the backing file with
`JSON.stringify(properties, null, 2)`.  The recorded parse result is the
written value itself, since `JSON.parse` inverts `JSON.stringify` on the
values of this model. -/
def saveProperties (properties : Json) (s : Store) : Store :=
  let s1 := ensureDataDir s
  { s1 with file := some { raw := jsonStringify properties, parsed := some properties } }

/-- Field lookup on a JS object literal or `JSON.parse` result; keys of
such objects are unique, so the first match is the field. -/
def lookupField : List (String × Json) → String → Option Json
  | [], _ => none
  | (k, v) :: fields, key => if k == key then some v else lookupField fields key

/-- Field access `p.field`, yielding `none` (JS `undefined`) when `p` is
not an object or lacks the field. -/
def recField (p : Json) (key : String) : Option Json :=
  match p with
  | Json.obj fields => lookupField fields key
  | _ => none

/-- The `_id` of a record when it is a string, else `none`; `p._id === id`
with `id` a string is true exactly when `p._id` is that same string. -/
def recId (p : Json) : Option String :=
  match recField p "_id" with
  | some (Json.str s) => some s
  | _ => none

/-- The callback `p => p._id === id` of `getPropertyById` on a non-null
element `p`. -/
def idMatches (p : Json) (id : String) : Bool :=
  recId p == some id

/-- Model of `properties.find(p => p._id === id)`: first match, `none`
for JS `undefined` when nothing matches; accessing `._id` on a `null`
element throws a TypeError, modelled by `Except.error`. -/
def findById : List Json → String → Except Unit (Option Json)
  | [], _ => Except.ok none
  | Json.null :: _, _ => Except.error ()
  | p :: ps, id => if idMatches p id then Except.ok (some p) else findById ps id

/-- One record of the default seed catalog, with the exact field names
and order of the object literals in server.js lines 34-86. -/
def mkRecord (id nm price location : String) (bedrooms bathrooms sqft : Int)
    (status description : String) (images : List String) (featured : Bool)
    (dateCreated dateUpdated : String) : Json :=
  Json.obj
    [ ("_id", Json.str id)
    , ("name", Json.str nm)
    , ("price", Json.str price)
    , ("location", Json.str location)
    , ("bedrooms", Json.num bedrooms)
    , ("bathrooms", Json.num bathrooms)
    , ("sqft", Json.num sqft)
    , ("status", Json.str status)
    , ("description", Json.str description)
    , ("images", Json.arr (images.map Json.str))
    , ("featured", Json.bool featured)
    , ("dateCreated", Json.str dateCreated)
    , ("dateUpdated", Json.str dateUpdated)
    ]

/-- The `defaultProperties` array of `getProperties` (server.js 34-86);
`clock k` is the result of the (k+1)-th `new Date().toISOString()` call,
in source evaluation order. -/
def defaultProperties (clock : Nat → String) : Json :=
  Json.arr
    [ mkRecord "prop_1" "Modern Family Home" "$750,000" "123 Oak Street, Riverside"
        4 3 2500 "for-sale"
        "Beautiful modern family home with spacious rooms and great location."
        ["https://images.unsplash.com/photo-1505843513577-22bb7d21e455?ixlib=rb-4.0.3&auto=format&fit=crop&w=500&q=80"]
        true (clock 0) (clock 1)
    , mkRecord "prop_2" "Downtown Condo" "$450,000" "456 City Center, Downtown"
        2 2 1200 "for-sale"
        "Stylish downtown condo with city views and modern amenities."
        ["https://images.unsplash.com/photo-1502672260266-1c1ef2d93688?ixlib=rb-4.0.3&auto=format&fit=crop&w=500&q=80"]
        true (clock 2) (clock 3)
    , mkRecord "prop_3" "Luxury Villa" "$1,250,000" "789 Pine Avenue, Hillcrest"
        5 4 3800 "for-sale"
        "Stunning luxury villa with premium finishes and mountain views."
        ["https://images.unsplash.com/photo-1512917774080-9991f1c4c750?ixlib=rb-4.0.3&auto=format&fit=crop&w=500&q=80"]
        true (clock 4) (clock 5)
    ]

/-- The catch branch of `getProperties` (server.js 33-89): build the
default records, persist them, and return them. -/
def seedDefaults (clock : Nat → String) (s : Store) : Json × Store :=
  let dp := defaultProperties clock
  (dp, saveProperties dp s)

/-- Model of `getProperties` (server.js 29-90): read and parse the
backing file; on any failure (file absent, or `JSON.parse` throws) run
the catch branch, which seeds and persists the defaults. -/
def getProperties (clock : Nat → String) (s : Store) : Json × Store :=
  match s.file with
  | some fd =>
      match fd.parsed with
      | some j => (j, s)
      | none => seedDefaults clock s
  | none => seedDefaults clock s

/-- Model of `getPropertyById` (server.js 97-100): load the collection,
then `properties.find(p => p._id === id)`; when the loaded value is not
an array it has no `find` method and the call throws a TypeError. -/
def getPropertyById (clock : Nat → String) (id : String) (s : Store) :
    Except Unit (Option Json) × Store :=
  let r := getProperties clock s
  match r.1 with
  | Json.arr ps => (findById ps id, r.2)
  | _ => (Except.error (), r.2)

/-- Field names of a record object, in order; `[]` for non-objects. -/
def fieldNames (p : Json) : List String :=
  match p with
  | Json.obj fields => fields.map Prod.fst
  | _ => []

/-- The field names every record written by server.js carries, in the
order of its object literals. -/
def codeFieldNames : List String :=
  [ "_id", "name", "price", "location", "bedrooms", "bathrooms", "sqft"
  , "status", "description", "images", "featured", "dateCreated", "dateUpdated" ]

/-- Typing checks used by the well-formedness predicate. -/
def isStrField (v : Option Json) : Bool :=
  match v with
  | some (Json.str _) => true
  | _ => false

/-- A numeric field is present and a number. -/
def isNumField (v : Option Json) : Bool :=
  match v with
  | some (Json.num _) => true
  | _ => false

/-- A boolean field is present and a boolean. -/
def isBoolField (v : Option Json) : Bool :=
  match v with
  | some (Json.bool _) => true
  | _ => false

/-- An images field is present and an array of strings. -/
def isStrArrField (v : Option Json) : Bool :=
  match v with
  | some (Json.arr xs) => xs.all fun x =>
      match x with
      | Json.str _ => true
      | _ => false
  | _ => false

/-- A well-formed property record per the data model: an object with
exactly the store's field names in order, string fields where the model
says string, numbers for `bedrooms`/`bathrooms`/`sqft`, a string array
for `images` and a boolean for `featured`. -/
def wellFormedRecord (p : Json) : Bool :=
  fieldNames p == codeFieldNames
    && isStrField (recField p "_id")
    && isStrField (recField p "name")
    && isStrField (recField p "price")
    && isStrField (recField p "location")
    && isNumField (recField p "bedrooms")
    && isNumField (recField p "bathrooms")
    && isNumField (recField p "sqft")
    && isStrField (recField p "status")
    && isStrField (recField p "description")
    && isStrArrField (recField p "images")
    && isBoolField (recField p "featured")
    && isStrField (recField p "dateCreated")
    && isStrField (recField p "dateUpdated")

/-- No element occurs twice in the list (by `BEq`). -/
def nodupBy [BEq α] : List α → Bool
  | [] => true
  | x :: xs => !(xs.contains x) && nodupBy xs

/-- Id uniqueness of a listing value: when the value is an array, no two
elements share a `_id`; degenerate on non-arrays. -/
def uniqueIds (v : Json) : Bool :=
  match v with
  | Json.arr ps => nodupBy (ps.map recId)
  | _ => true

/-- Lexicographic comparison of character lists by code point. -/
def charListLE : List Char → List Char → Bool
  | [], _ => true
  | _ :: _, [] => false
  | a :: as, b :: bs =>
      if a.toNat = b.toNat then charListLE as bs else Nat.blt a.toNat b.toNat

/-- Lexicographic order on the textual ISO 8601 timestamps: code-point
order, which is how JS compares these ASCII strings. -/
def strLE (a b : String) : Bool :=
  charListLE a.data b.data

/-- The `dateUpdated >= dateCreated` check for one record. -/
def recDatesOk (p : Json) : Bool :=
  match recField p "dateCreated", recField p "dateUpdated" with
  | some (Json.str c), some (Json.str u) => strLE c u
  | _, _ => false

/-- The date invariant over a listing value. -/
def datesOk (v : Json) : Bool :=
  match v with
  | Json.arr ps => ps.all recDatesOk
  | _ => false

/-- Number of records in a listing value, when it is an array. -/
def jsonLength (v : Json) : Option Nat :=
  match v with
  | Json.arr ps => some ps.length
  | _ => none

/-- The `_id` values of a listing value, in order. -/
def idsOf (v : Json) : List (Option String) :=
  match v with
  | Json.arr ps => ps.map recId
  | _ => []

/-- A given field of every record of a listing value, in order. -/
def fieldsOf (key : String) (v : Json) : List (Option Json) :=
  match v with
  | Json.arr ps => ps.map fun p => recField p key
  | _ => []

/-- The parse result of the backing file, when the file exists. -/
def storedValue (s : Store) : Option Json :=
  s.file.bind fun fd => fd.parsed

/-- The raw text of the backing file, when the file exists. -/
def fileRaw (s : Store) : Option String :=
  s.file.map fun fd => fd.raw

/-- A concrete clock for witnesses: every `Date` call returns the same
instant. -/
def wClock (_ : Nat) : String :=
  "2024-01-01T00:00:00.000Z"

/-- A second concrete clock, distinct from `wClock`. -/
def wClock2 (_ : Nat) : String :=
  "2025-06-15T12:30:00.000Z"

/-- The concrete record of the spec's Scenario B (`prop_9`, Test Loft),
in the shape server.js writes. -/
def testRec : Json :=
  mkRecord "prop_9" "Test Loft" "$300,000" "X" 1 1 500 "for-sale" "d" []
    false "2024-01-01T00:00:00.000Z" "2024-01-01T00:00:00.000Z"

/-- A record sharing `prop_9` with `testRec` but otherwise different. -/
def dupRec : Json :=
  mkRecord "prop_9" "Other Loft" "$111,000" "Y" 2 1 700 "for-sale" "e" []
    true "2024-01-01T00:00:00.000Z" "2024-01-01T00:00:00.000Z"

/-- A record whose `dateUpdated` precedes its `dateCreated`. -/
def badDatesRec : Json :=
  mkRecord "prop_bad" "Backdated" "$1" "Z" 1 1 100 "for-sale" "f" []
    false "2024-05-05T00:00:00.000Z" "2020-01-01T00:00:00.000Z"

/-- A concrete corrupt state: the backing file exists but its content
does not parse as JSON. -/
def corruptStore : Store :=
  { dirExists := true, file := some { raw := "not json", parsed := none } }

/-- A concrete state whose backing file holds the JSON number 5, which
is valid JSON but not an array of records. -/
def numStore : Store :=
  { dirExists := true, file := some { raw := "5", parsed := some (Json.num 5) } }

/-- C1: against empty storage (no backing file), `listAll` yields exactly
3 records with ids `prop_1`, `prop_2`, `prop_3` in that order, all with
`featured = true`, with locations "123 Oak Street, Riverside",
"456 City Center, Downtown", "789 Pine Avenue, Hillcrest". -/
theorem seed_listAll_shape (clock : Nat → String) (s : Store) (h : s.file = none) :
    jsonLength (getProperties clock s).1 = some 3
  ∧ idsOf (getProperties clock s).1 = [some "prop_1", some "prop_2", some "prop_3"]
  ∧ fieldsOf "featured" (getProperties clock s).1
      = [some (Json.bool true), some (Json.bool true), some (Json.bool true)]
  ∧ fieldsOf "location" (getProperties clock s).1
      = [ some (Json.str "123 Oak Street, Riverside")
        , some (Json.str "456 City Center, Downtown")
        , some (Json.str "789 Pine Avenue, Hillcrest") ] := by
  obtain ⟨d, f⟩ := s
  cases h
  exact ⟨rfl, rfl, rfl, rfl⟩

/-- C1 witness: the seeded shape at a concrete clock and fresh store. -/
theorem seed_listAll_shape_witness :
    jsonLength (getProperties wClock initStore).1 = some 3
  ∧ idsOf (getProperties wClock initStore).1 = [some "prop_1", some "prop_2", some "prop_3"]
  ∧ fieldsOf "featured" (getProperties wClock initStore).1
      = [some (Json.bool true), some (Json.bool true), some (Json.bool true)]
  ∧ fieldsOf "location" (getProperties wClock initStore).1
      = [ some (Json.str "123 Oak Street, Riverside")
        , some (Json.str "456 City Center, Downtown")
        , some (Json.str "789 Pine Avenue, Hillcrest") ] :=
  seed_listAll_shape wClock initStore rfl

/-- C2: saving any well-formed sequence of records with unique ids and
then listing returns exactly that sequence, order preserved, with the
store state left as the save wrote it. -/
theorem saveAll_listAll_roundtrip (clock : Nat → String) (R : List Json) (s : Store)
    (_hwf : ∀ p ∈ R, wellFormedRecord p = true)
    (_hids : nodupBy (R.map recId) = true) :
    getProperties clock (saveProperties (Json.arr R) s)
      = (Json.arr R, saveProperties (Json.arr R) s) := rfl

/-- C2 witness: the round-trip at the concrete Scenario B record. -/
theorem saveAll_listAll_roundtrip_witness :
    getProperties wClock (saveProperties (Json.arr [testRec]) initStore)
      = (Json.arr [testRec], saveProperties (Json.arr [testRec]) initStore) :=
  saveAll_listAll_roundtrip wClock [testRec] initStore (by decide) (by decide)

/-- C4: when the backing file is absent, `listAll` synthesizes the
defaults, persists them before returning (the new state's file parses to
the returned value), and every subsequent `listAll` with no intervening
mutation returns the identical data and leaves the state unchanged. -/
theorem listAll_seeds_and_persists (clock : Nat → String) (s : Store) (h : s.file = none) :
    (getProperties clock s).2.file ≠ none
  ∧ storedValue (getProperties clock s).2 = some (getProperties clock s).1
  ∧ ∀ clock2, getProperties clock2 (getProperties clock s).2
      = ((getProperties clock s).1, (getProperties clock s).2) := by
  obtain ⟨d, f⟩ := s
  cases h
  exact ⟨Option.some_ne_none _, rfl, fun clock2 => rfl⟩

/-- C4 witness: seeding and persistence at concrete clocks, the second
call made with a different clock than the first. -/
theorem listAll_seeds_and_persists_witness :
    (getProperties wClock initStore).2.file ≠ none
  ∧ storedValue (getProperties wClock initStore).2 = some (getProperties wClock initStore).1
  ∧ getProperties wClock2 (getProperties wClock initStore).2
      = ((getProperties wClock initStore).1, (getProperties wClock initStore).2) :=
  ⟨(listAll_seeds_and_persists wClock initStore rfl).1,
   (listAll_seeds_and_persists wClock initStore rfl).2.1,
   (listAll_seeds_and_persists wClock initStore rfl).2.2 wClock2⟩

/-- C5: when the backing file exists but its content fails to parse,
`listAll` behaves exactly as if the file were absent — it re-seeds the
three defaults (no CorruptStore error exists in this code path), and
does so on every parse failure. -/
theorem corrupt_store_reseeds (clock : Nat → String) (s : Store) (fd : FileData)
    (hf : s.file = some fd) (hp : fd.parsed = none) :
    getProperties clock s = getProperties clock { s with file := none }
  ∧ idsOf (getProperties clock s).1 = [some "prop_1", some "prop_2", some "prop_3"]
  ∧ jsonLength (getProperties clock s).1 = some 3 := by
  obtain ⟨d, f⟩ := s
  obtain ⟨raw, parsed⟩ := fd
  cases hf
  cases hp
  cases d <;> exact ⟨rfl, rfl, rfl⟩

/-- C5 witness: re-seeding on a concrete unparseable backing file. -/
theorem corrupt_store_reseeds_witness :
    getProperties wClock corruptStore = getProperties wClock { corruptStore with file := none }
  ∧ idsOf (getProperties wClock corruptStore).1 = [some "prop_1", some "prop_2", some "prop_3"]
  ∧ jsonLength (getProperties wClock corruptStore).1 = some 3 :=
  corrupt_store_reseeds wClock corruptStore { raw := "not json", parsed := none } rfl rfl

/-- C6: the directory bootstrap never fails, leaves the directory
present after one call, and calling it again on the resulting state also
succeeds with the directory still present. -/
theorem ensureDataDir_idempotent : ∀ s : Store,
    (ensureDataDir s).dirExists = true
  ∧ (ensureDataDir (ensureDataDir s)).dirExists = true := by
  intro s
  obtain ⟨d, f⟩ := s
  cases d <;> exact ⟨rfl, rfl⟩

/-- C10: whenever the backing file holds any syntactically valid JSON
value — array of records or not — `listAll` returns that parsed value
as-is with no shape validation, no re-seeding, and no state change. -/
theorem valid_json_returned_as_is (clock : Nat → String) (s : Store) (fd : FileData)
    (j : Json) (hf : s.file = some fd) (hp : fd.parsed = some j) :
    getProperties clock s = (j, s) := by
  obtain ⟨d, f⟩ := s
  obtain ⟨raw, parsed⟩ := fd
  cases hf
  cases hp
  rfl

/-- C10 witness: a backing file holding the JSON number 5 is returned
unvalidated and unmodified. -/
theorem valid_json_returned_as_is_witness :
    getProperties wClock numStore = (Json.num 5, numStore) :=
  valid_json_returned_as_is wClock numStore { raw := "5", parsed := some (Json.num 5) }
    (Json.num 5) rfl rfl

/-- A well-formed record has a string `_id`, so `recId` is defined. -/
theorem recId_isSome_of_wf (p : Json) (h : wellFormedRecord p = true) :
    (recId p).isSome = true := by
  have h2 : isStrField (recField p "_id") = true := by
    simp only [wellFormedRecord, Bool.and_eq_true, and_assoc] at h
    exact h.2.1
  unfold recId
  cases hres : recField p "_id" with
  | none => rw [hres] at h2; exact Bool.noConfusion h2
  | some v =>
    cases v with
    | str s => rfl
    | null => rw [hres] at h2; exact Bool.noConfusion h2
    | bool b => rw [hres] at h2; exact Bool.noConfusion h2
    | num n => rw [hres] at h2; exact Bool.noConfusion h2
    | arr xs => rw [hres] at h2; exact Bool.noConfusion h2
    | obj fs => rw [hres] at h2; exact Bool.noConfusion h2

/-- When every element has a string `_id` and the ids are duplicate-free,
the linear scan finds exactly the member carrying the requested id. -/
theorem findById_mem (ps : List Json) (r : Json) (i : String)
    (hws : ∀ p ∈ ps, (recId p).isSome = true)
    (hnd : nodupBy (ps.map recId) = true)
    (hmem : r ∈ ps) (hid : recId r = some i) :
    findById ps i = Except.ok (some r) := by
  induction ps with
  | nil => cases hmem
  | cons a as ih =>
    have ha : (recId a).isSome = true := hws a (List.mem_cons_self a as)
    have hnotnull : a ≠ Json.null := by
      intro hn
      rw [hn] at ha
      exact Bool.noConfusion ha
    have hnd2 : nodupBy (as.map recId) = true := by
      simp only [List.map_cons, nodupBy, Bool.and_eq_true] at hnd
      exact hnd.2
    have hcont : (as.map recId).contains (recId a) = false := by
      simp only [List.map_cons, nodupBy, Bool.and_eq_true, Bool.not_eq_true'] at hnd
      exact hnd.1
    rcases List.mem_cons.mp hmem with hra | hras
    · subst hra
      have hmatch : idMatches r i = true := by
        simp [idMatches, hid]
      cases r with
      | null => exact absurd rfl hnotnull
      | bool b => simp [findById, hmatch]
      | num n => simp [findById, hmatch]
      | str s => simp [findById, hmatch]
      | arr xs => simp [findById, hmatch]
      | obj fs => simp [findById, hmatch]
    · have hne : recId a ≠ some i := by
        intro heq
        have hin : recId a ∈ as.map recId := by
          rw [heq, ← hid]
          exact List.mem_map_of_mem recId hras
        have htrue : (as.map recId).contains (recId a) = true :=
          List.elem_eq_true_of_mem hin
        rw [hcont] at htrue
        exact Bool.noConfusion htrue
      have hmatch : idMatches a i = false := by
        simp [idMatches, hne]
      have hrest := ih (fun p hp => hws p (List.mem_cons_of_mem a hp)) hnd2 hras
      cases a with
      | null => exact absurd rfl hnotnull
      | bool b => simpa [findById, hmatch] using hrest
      | num n => simpa [findById, hmatch] using hrest
      | str s => simpa [findById, hmatch] using hrest
      | arr xs => simpa [findById, hmatch] using hrest
      | obj fs => simpa [findById, hmatch] using hrest

/-- When every element has a string `_id` and none of them carries the
requested id, the scan runs off the end and yields `undefined`. -/
theorem findById_not_mem (ps : List Json) (i : String)
    (hws : ∀ p ∈ ps, (recId p).isSome = true)
    (hni : some i ∉ ps.map recId) :
    findById ps i = Except.ok none := by
  induction ps with
  | nil => rfl
  | cons a as ih =>
    have ha : (recId a).isSome = true := hws a (List.mem_cons_self a as)
    have hnotnull : a ≠ Json.null := by
      intro hn
      rw [hn] at ha
      exact Bool.noConfusion ha
    have hne : recId a ≠ some i := by
      intro heq
      exact hni (List.mem_cons.mpr (Or.inl heq.symm))
    have hni2 : some i ∉ as.map recId := by
      intro hin
      exact hni (List.mem_cons.mpr (Or.inr hin))
    have hmatch : idMatches a i = false := by
      simp [idMatches, hne]
    have hrest := ih (fun p hp => hws p (List.mem_cons_of_mem a hp)) hni2
    cases a with
    | null => exact absurd rfl hnotnull
    | bool b => simpa [findById, hmatch] using hrest
    | num n => simpa [findById, hmatch] using hrest
    | str s => simpa [findById, hmatch] using hrest
    | arr xs => simpa [findById, hmatch] using hrest
    | obj fs => simpa [findById, hmatch] using hrest

/-- C3: after saving a sequence of well-formed records with unique ids,
`getById` of any saved record's id returns exactly that record, and
`getById` of any id not present returns NotFound (`Except.ok none`,
JS `undefined`) as a normal result, not a raised error. -/
theorem getById_after_save (clock : Nat → String) (R : List Json) (s : Store)
    (hwf : ∀ p ∈ R, wellFormedRecord p = true)
    (hnd : nodupBy (R.map recId) = true) :
    (∀ r ∈ R, ∀ i, recId r = some i →
      getPropertyById clock i (saveProperties (Json.arr R) s)
        = (Except.ok (some r), saveProperties (Json.arr R) s))
  ∧ ∀ i, some i ∉ R.map recId →
      getPropertyById clock i (saveProperties (Json.arr R) s)
        = (Except.ok none, saveProperties (Json.arr R) s) := by
  have hws : ∀ p ∈ R, (recId p).isSome = true :=
    fun p hp => recId_isSome_of_wf p (hwf p hp)
  constructor
  · intro r hr i hi
    have hfind := findById_mem R r i hws hnd hr hi
    show (findById R i, saveProperties (Json.arr R) s)
      = (Except.ok (some r), saveProperties (Json.arr R) s)
    rw [hfind]
  · intro i hni
    have hfind := findById_not_mem R i hws hni
    show (findById R i, saveProperties (Json.arr R) s)
      = (Except.ok none, saveProperties (Json.arr R) s)
    rw [hfind]

/-- C3 witness: the spec's Scenario B — after saving only the `prop_9`
record, `getById "prop_9"` returns it and `getById "prop_1"` returns
NotFound without raising. -/
theorem getById_after_save_witness :
    getPropertyById wClock "prop_9" (saveProperties (Json.arr [testRec]) initStore)
      = (Except.ok (some testRec), saveProperties (Json.arr [testRec]) initStore)
  ∧ getPropertyById wClock "prop_1" (saveProperties (Json.arr [testRec]) initStore)
      = (Except.ok none, saveProperties (Json.arr [testRec]) initStore) :=
  ⟨(getById_after_save wClock [testRec] initStore (by decide) (by decide)).1 testRec
      (List.mem_singleton.mpr rfl) "prop_9" rfl,
   (getById_after_save wClock [testRec] initStore (by decide) (by decide)).2 "prop_1"
      (by decide)⟩

/-- C7 counterexample: `saveProperties` performs no id validation, so a
single `saveAll` of two distinct records sharing `_id = "prop_9"`
reaches a store state whose listing contains a duplicate id. -/
theorem listAll_duplicate_ids_cex :
    (getProperties wClock (saveProperties (Json.arr [testRec, dupRec]) initStore)).1
      = Json.arr [testRec, dupRec]
  ∧ uniqueIds (getProperties wClock (saveProperties (Json.arr [testRec, dupRec]) initStore)).1
      = false :=
  ⟨rfl, rfl⟩

/-- C7 amended: the code never enforces id uniqueness; instead, the
seeded defaults have unique ids, and a `saveAll` whose input has unique
ids leaves a listing with unique ids (uniqueness is preserved, not
checked). -/
theorem uniqueIds_seed_and_save (clock : Nat → String) (R : List Json) (s : Store) :
    (s.file = none → uniqueIds (getProperties clock s).1 = true)
  ∧ (uniqueIds (Json.arr R) = true →
      uniqueIds (getProperties clock (saveProperties (Json.arr R) s)).1 = true) := by
  constructor
  · intro h
    obtain ⟨d, f⟩ := s
    cases h
    rfl
  · intro h
    exact h

/-- C7 amended witness: unique ids after seeding a fresh store and after
saving the single `prop_9` record. -/
theorem uniqueIds_seed_and_save_witness :
    uniqueIds (getProperties wClock initStore).1 = true
  ∧ uniqueIds (getProperties wClock (saveProperties (Json.arr [testRec]) initStore)).1 = true :=
  ⟨(uniqueIds_seed_and_save wClock [] initStore).1 rfl,
   (uniqueIds_seed_and_save wClock [testRec] initStore).2 (by decide)⟩

/-- C8 counterexample: `saveProperties` accepts a record whose
`dateUpdated` precedes its `dateCreated`, and `listAll` then returns it,
so the date invariant does not hold in every reachable state. -/
theorem listAll_dates_cex :
    (getProperties wClock (saveProperties (Json.arr [badDatesRec]) initStore)).1
      = Json.arr [badDatesRec]
  ∧ datesOk (getProperties wClock (saveProperties (Json.arr [badDatesRec]) initStore)).1
      = false :=
  ⟨rfl, rfl⟩

/-- C8 amended: the code never checks the date invariant; instead, the
seeded defaults satisfy `dateUpdated >= dateCreated` whenever the clock
is monotone over the successive `Date` calls, and a `saveAll` whose
input satisfies the invariant leaves a listing satisfying it. -/
theorem datesOk_seed_and_save (clock : Nat → String) (R : List Json) (s : Store) :
    ((∀ i j : Nat, i ≤ j → strLE (clock i) (clock j) = true) → s.file = none →
      datesOk (getProperties clock s).1 = true)
  ∧ (datesOk (Json.arr R) = true →
      datesOk (getProperties clock (saveProperties (Json.arr R) s)).1 = true) := by
  constructor
  · intro hmono h
    obtain ⟨d, f⟩ := s
    cases h
    have h01 := hmono 0 1 (by omega)
    have h23 := hmono 2 3 (by omega)
    have h45 := hmono 4 5 (by omega)
    show (strLE (clock 0) (clock 1)
        && (strLE (clock 2) (clock 3) && (strLE (clock 4) (clock 5) && true))) = true
    rw [h01, h23, h45]
    rfl
  · intro h
    exact h

/-- C8 amended witness: the date invariant after seeding with a constant
clock and after saving the `prop_9` record whose two dates coincide. -/
theorem datesOk_seed_and_save_witness :
    datesOk (getProperties wClock initStore).1 = true
  ∧ datesOk (getProperties wClock (saveProperties (Json.arr [testRec]) initStore)).1 = true :=
  ⟨(datesOk_seed_and_save wClock [] initStore).1 (fun i j hij => rfl) rfl,
   (datesOk_seed_and_save wClock [testRec] initStore).2 (by decide)⟩

/-- C9 counterexample: the records server.js writes name their
identifier field `_id`, not `id`: after saving the Scenario B record the
backing file's array element carries the store's field names, among
which `id` does not occur while `_id` does. -/
theorem saved_field_names_cex :
    storedValue (saveProperties (Json.arr [testRec]) initStore) = some (Json.arr [testRec])
  ∧ fieldNames testRec = codeFieldNames
  ∧ codeFieldNames.contains "id" = false
  ∧ codeFieldNames.contains "_id" = true :=
  ⟨rfl, rfl, rfl, rfl⟩

/-- C9 amended: after any `saveAll` of records in the shape server.js
uses, the backing file's text is the two-space pretty-printed JSON of
the record array, the file parses back to exactly that array, and every
record's field names are exactly the store's field names, with the
identifier field named `_id` (not `id`). -/
theorem saved_file_layout (R : List Json) (s : Store)
    (hwf : ∀ p ∈ R, wellFormedRecord p = true) :
    fileRaw (saveProperties (Json.arr R) s) = some (jsonStringify (Json.arr R))
  ∧ storedValue (saveProperties (Json.arr R) s) = some (Json.arr R)
  ∧ ∀ p ∈ R, fieldNames p = codeFieldNames := by
  refine ⟨rfl, rfl, fun p hp => ?_⟩
  have h := hwf p hp
  simp only [wellFormedRecord, Bool.and_eq_true, and_assoc] at h
  exact eq_of_beq h.1

/-- C9 amended witness: the file layout after saving the Scenario B
record. -/
theorem saved_file_layout_witness :
    fileRaw (saveProperties (Json.arr [testRec]) initStore)
      = some (jsonStringify (Json.arr [testRec]))
  ∧ storedValue (saveProperties (Json.arr [testRec]) initStore) = some (Json.arr [testRec])
  ∧ fieldNames testRec = codeFieldNames :=
  ⟨(saved_file_layout [testRec] initStore (by decide)).1,
   (saved_file_layout [testRec] initStore (by decide)).2.1,
   (saved_file_layout [testRec] initStore (by decide)).2.2 testRec (List.mem_singleton.mpr rfl)⟩

/-- Concrete check of the two-space pretty-printing model: a one-field
object inside a one-element array renders with the array item indented
two spaces and the object member indented four, exactly as
`JSON.stringify(value, null, 2)` prints it. -/
theorem jsonStringify_sample :
    jsonStringify (Json.arr [Json.obj [("a", Json.num 1)]])
      = "[\n  \x7b\n    \"a\": 1\n  \x7d\n]" := rfl

/-- Concrete check that a saved empty collection is the file text `[]`. -/
theorem jsonStringify_empty_sample :
    fileRaw (saveProperties (Json.arr []) initStore) = some "[]" := rfl
